import Mathlib

/-!
Verification of the astexplorer-syn conversion layer.

The development shallowly embeds the two source files of the repository:

* `src/build.rs` — a schema-driven generator: given `Definitions` (a catalog
  of nodes and tokens), it emits one `to_js` conversion routine per node and
  token.  We embed the schema model (`Ty`, `Data`, `Node`, `Definitions`),
  the span blacklist `has_spanned`, the group-field sort, and the shape of
  the code each generator arm emits (`structEmission`, `privateEmission`,
  `enumArmEmission`, `tokenEmission`, `nodeEmission`).

* `src/src/lib.rs` — the runtime conversion layer (`ToJS` impls for
  primitives, wrappers, tuples, `Punctuated`, `TokenStream`, spans) and the
  three wasm entry points `parse_file`, `parse_derive_input`, `print_ast`.

JS host values are modelled by the inductive `JsValue`.  An object is the
ordered list of `set` operations performed on it (string keys from `set`,
numeric keys from `set_i`), so emission order is observable.  All numeric
values surfaced by the modelled code are natural-valued; the `as f64` casts
of `u64`/`usize`/`u8` are modelled by `toF64`, IEEE-754 round-to-nearest-even
on naturals.  External collaborators (the `syn` parser, `syn_serde` JSON
encode/decode, the pretty-printer) are parameters of the entry points.
-/

namespace AstSyn

/-- A JS object key: a string key (written by `Object::set`) or a numeric
index (written by `Object::set_i`). -/
inductive JsKey where
  | s (name : String)
  | i (index : Nat)
deriving DecidableEq, Repr

/-- A JS host value as constructed by `lib.rs`: `undefined`, a boolean, a
(natural-valued) number, a string, an object (its ordered list of entries),
an array (built by `Array::push`), or a `SyntaxError` host object carrying a
message and a `lineNumber`. -/
inductive JsValue where
  | undef
  | boolean (b : Bool)
  | number (n : Nat)
  | string (s : String)
  | object (entries : List (JsKey × JsValue))
  | array (elems : List JsValue)
  | err (message : String) (line : Nat)

/-- `new_object_with_type` (lib.rs): a fresh object whose first entry sets
`_type` to the given tag. -/
def new_object_with_type (ty : String) : List (JsKey × JsValue) :=
  [(JsKey.s "_type", JsValue.string ty)]

/-- The object form of the `js!` macro (lib.rs): the `_type` tag, then the
named fields in order, then — when the bracketed indexed part is present —
the items under successive numeric keys followed by a `length` entry. -/
def jsObject (ty : String) (named : List (String × JsValue))
    (indexed : Option (List JsValue)) : JsValue :=
  JsValue.object
    (new_object_with_type ty
      ++ named.map (fun nv => (JsKey.s nv.1, nv.2))
      ++ match indexed with
         | none => []
         | some items =>
             items.enum.map (fun iv => (JsKey.i iv.1, iv.2))
               ++ [(JsKey.s "length", JsValue.number items.length)])

/-- The array form of the `js!` macro (lib.rs): push each value. -/
def jsArray (items : List JsValue) : JsValue :=
  JsValue.array items

/-- The `_type` tag of a value, when it is an object whose `_type` entry is a
string. -/
def tagOf : JsValue → Option String
  | JsValue.object entries =>
      match entries.lookup (JsKey.s "_type") with
      | some (JsValue.string s) => some s
      | _ => none
  | _ => none

/-- Whether a value is a JS string. -/
def isStringValue : JsValue → Bool
  | JsValue.string _ => true
  | _ => false

/-- Whether a value is the structured `SyntaxError` host object. -/
def isStructuredErr : JsValue → Bool
  | JsValue.err _ _ => true
  | _ => false

/-- Whether a value has the tagged-indexed-sequence shape used by
`Punctuated`, `TokenStream` and multi-payload enum variants: an object
carrying both a `_type` entry and a `length` entry. -/
def isTaggedIndexedSeq : JsValue → Bool
  | JsValue.object entries =>
      (entries.lookup (JsKey.s "_type")).isSome
        && (entries.lookup (JsKey.s "length")).isSome
  | _ => false

/-! ## Runtime conversion layer (`lib.rs` `ToJS` impls)

Polymorphic impls take the element conversion as a function argument. -/

/-- `ToJS for Option<T>`: present delegates, absent is `undefined`. -/
def option_to_js (f : α → JsValue) : Option α → JsValue
  | some value => f value
  | none => JsValue.undef

/-- `ToJS for Box<T>`: transparent passthrough. -/
def box_to_js (f : α → JsValue) (v : α) : JsValue :=
  f v

/-- `ToJS for [T]`: a plain array of the converted items, in order. -/
def slice_to_js (f : α → JsValue) (l : List α) : JsValue :=
  JsValue.array (l.map f)

/-- `ToJS for Vec<T>`: delegates to the slice impl. -/
def vec_to_js (f : α → JsValue) (l : List α) : JsValue :=
  slice_to_js f l

/-- `ToJS for ()`: `undefined`. -/
def unit_to_js : Unit → JsValue :=
  fun _ => JsValue.undef

/-- `ToJS for bool`: exact. -/
def bool_to_js (b : Bool) : JsValue :=
  JsValue.boolean b

/-- `ToJS for u32` (`JsValue::from(u32)`): exact. -/
def u32_to_js (n : Nat) : JsValue :=
  JsValue.number n

/-- Fuel-driven search for the binary exponent used by the double rounding:
the least `e` with `n / 2 ^ e ≤ 2 ^ 53`, found by repeated halving. -/
def f64Exp (fuel n : Nat) : Nat :=
  match fuel with
  | 0 => 0
  | fuel + 1 => if n ≤ 2 ^ 53 then 0 else f64Exp fuel (n / 2) + 1

/-- The value of the IEEE-754 binary64 double nearest to the natural `n`
(round to nearest, ties to even): models the Rust `as f64` cast on
unsigned integers.  Values up to `2 ^ 53` are exact; above, `n` is rounded
to the nearest multiple of `2 ^ e` where `e` is the least exponent putting
the significand `n / 2 ^ e` within 53 bits. -/
def toF64 (n : Nat) : Nat :=
  if n ≤ 2 ^ 53 then n
  else
    let e := f64Exp n n
    let q := n / 2 ^ e
    let r := n % 2 ^ e
    if r < 2 ^ (e - 1) then q * 2 ^ e
    else if 2 ^ (e - 1) < r then (q + 1) * 2 ^ e
    else if q % 2 = 0 then q * 2 ^ e else (q + 1) * 2 ^ e

/-- `ToJS for f64` (`JsValue::from(f64)`): the double value passes through;
all doubles produced by the modelled code are natural-valued. -/
def f64_to_js (x : Nat) : JsValue :=
  JsValue.number x

/-- `ToJS for u64`: `(*self as f64).to_js()` — potentially lossy over
`2 ^ 53`. -/
def u64_to_js (n : Nat) : JsValue :=
  f64_to_js (toF64 n)

/-- `ToJS for usize`: `(*self as f64).to_js()`. -/
def usize_to_js (n : Nat) : JsValue :=
  f64_to_js (toF64 n)

/-- `ToJS for u8`: `(*self as f64).to_js()`. -/
def u8_to_js (n : Nat) : JsValue :=
  f64_to_js (toF64 n)

/-- `ToJS for str`: passthrough. -/
def str_to_js (s : String) : JsValue :=
  JsValue.string s

/-- `ToJS for String`: delegates to the `str` impl. -/
def string_to_js (s : String) : JsValue :=
  str_to_js s

/-- `ToJS for char`: the UTF-8 encoding of the character as a string. -/
def char_to_js (c : Char) : JsValue :=
  str_to_js (String.singleton c)

/-- `ToJS for (A, B)`: `js!([self.0, self.1])`. -/
def pair_to_js (fa : α → JsValue) (fb : β → JsValue) (p : α × β) : JsValue :=
  jsArray [fa p.1, fb p.2]

/-- `ToJS for (A, B, C)`: `js!([self.0, self.1, self.2])`. -/
def triple_to_js (fa : α → JsValue) (fb : β → JsValue) (fc : γ → JsValue)
    (p : α × β × γ) : JsValue :=
  jsArray [fa p.1, fb p.2.1, fc p.2.2]

/-- `proc_macro2::LineColumn` — `line` is 1-indexed, `column` 0-indexed. -/
structure LineColumn where
  line : Nat
  column : Nat

/-- `proc_macro2::Span`, reduced to what the code reads: its start and end
locations.  The field `stop` models the source's `end()` accessor (`end` is
a Lean keyword). -/
structure Span where
  start : LineColumn
  stop : LineColumn

/-- `ToJS for proc_macro2::LineColumn` — both coordinates are cast `as u32`
and converted exactly. -/
def lineColumn_to_js (lc : LineColumn) : JsValue :=
  jsObject "LineColumn"
    [("line", u32_to_js lc.line), ("column", u32_to_js lc.column)] none

/-- `ToJS for proc_macro2::Span`: `js!(Span { start, end })`. -/
def span_to_js (sp : Span) : JsValue :=
  jsObject "Span"
    [("start", lineColumn_to_js sp.start), ("end", lineColumn_to_js sp.stop)]
    none

/-- `ToJS for proc_macro2::TokenStream`: a `"TokenStream"`-tagged object with
the converted token trees under numeric keys and a `length` entry — the same
loop the `js!` indexed form performs, so it coincides with
`jsObject _ [] (some _)` on the converted items. -/
def tokenStream_to_js (f : α → JsValue) (items : List α) : JsValue :=
  jsObject "TokenStream" [] (some (items.map f))

/-- `syn::punctuated::Punctuated<T, P>`: the pairs that carry a separator
(`inner`) followed by an optional final element without one (`last`). -/
structure Punctuated (T P : Type) where
  inner : List (T × P)
  last : Option T

/-- The `pairs()` iterator: each inner element with its separator, then the
final element (if any) with no separator. -/
def Punctuated.pairs (p : Punctuated T P) : List (T × Option P) :=
  p.inner.map (fun tp => (tp.1, some tp.2))
    ++ match p.last with
       | none => []
       | some t => [(t, none)]

/-- Number of elements of the separated list. -/
def Punctuated.numElems (p : Punctuated T P) : Nat :=
  p.inner.length + (if p.last.isSome then 1 else 0)

/-- The indexed items the `Punctuated` conversion loop writes: for each pair,
the converted element, then its converted separator when present. -/
def punctuatedItems (fT : T → JsValue) (fP : P → JsValue)
    (p : Punctuated T P) : List JsValue :=
  ((p.pairs).map (fun tp =>
      fT tp.1 :: match tp.2 with
                 | none => []
                 | some pn => [fP pn])).flatten

/-- `ToJS for syn::punctuated::Punctuated<T, P>`: a `"Punctuated"`-tagged
object; the loop writes the element at index `i`, increments, writes the
separator when present, increments, and finally sets `length` to the count
written — i.e. the `jsObject` indexed form on `punctuatedItems`. -/
def punctuated_to_js (fT : T → JsValue) (fP : P → JsValue)
    (p : Punctuated T P) : JsValue :=
  jsObject "Punctuated" [] (some (punctuatedItems fT fP p))

/-! ## Schema model (`build.rs`, module `types`) -/

/-- `types::Type` — the nine type shapes of the schema. -/
inductive Ty where
  | Syn (ident : String)
  | Std (ident : String)
  | Ext (ident : String)
  | Token (ident : String)
  | Group (ident : String)
  | Punctuated (element : Ty) (punct : String)
  | Option (t : Ty)
  | Box (t : Ty)
  | Vec (t : Ty)
  | Tuple (ts : List Ty)

/-- `types::Data` — a node's shape; `Fields` and `Variants` are ordered maps,
modelled as association lists in declaration order. -/
inductive Data where
  | Private
  | Struct (fields : List (String × Ty))
  | Enum (variants : List (String × List Ty))

/-- `types::Node`. -/
structure Node where
  ident : String
  data : Data

/-- `types::Definitions`: the node catalog and the token catalog (token name
to raw textual pattern, in declaration order). -/
structure Definitions where
  types : List Node
  tokens : List (String × String)

/-- `has_spanned` (build.rs): the manual blacklist of node identifiers whose
`to_js` gets no `span` field. -/
def has_spanned (ty : String) : Bool :=
  match ty with
  | "DataStruct" | "DataEnum" | "DataUnion" => false
  | "FnDecl" => false
  | "QSelf" => false
  | _ => true

/-- The key of `fields.sort_by_key` in the `Data::Struct` arm of
`Node::to_tokens`: `Group` fields and `Syn` references to `MacroDelimiter`
get key 1, everything else key 0. -/
def groupSortKey : Ty → Nat
  | Ty.Group _ => 1
  | Ty.Syn ident => if ident = "MacroDelimiter" then 1 else 0
  | _ => 0

/-- `fields.sort_by_key(groupSortKey)` — Rust's `sort_by_key` is a stable
sort, modelled by `List.mergeSort` on the key comparison. -/
def sortFields (fields : List (String × Ty)) : List (String × Ty) :=
  fields.mergeSort (fun a b => decide (groupSortKey a.2 ≤ groupSortKey b.2))

/-- What the generated `to_js` body of a `Data::Struct` node produces, given
the converted value of each field (`self.#field.to_js()`) and of the node's
own span (`self.span().to_js()`): the sorted fields in order, then a `span`
field unless the identifier is blacklisted. -/
def structEmission (ident : String) (fields : List (String × Ty))
    (fieldVal : String → JsValue) (spanVal : JsValue) : JsValue :=
  jsObject ident
    ((sortFields fields).map (fun f => (f.1, fieldVal f.1))
      ++ (if has_spanned ident then [("span", spanVal)] else []))
    none

/-- What the generated `to_js` body of a `Data::Private` node produces:
`js!(#ident { value: self.value(), span: self.span() })`. -/
def privateEmission (ident : String) (valueVal spanVal : JsValue) : JsValue :=
  jsObject ident [("value", valueVal), ("span", spanVal)] none

/-- The `_type` tag of an enum variant arm: `concat!(stringify!(Ident),
"::", stringify!(Variant))`. -/
def variantTag (ident variant : String) : String :=
  ident ++ "::" ++ variant

/-- The generated match arm for one enum variant, dispatched on the declared
payload arity: 0 payloads — `js!(#variant {})`; 1 payload — `x.to_js()`;
otherwise — `js!(#variant { span: self.span() } [x0, ..., xn])`. -/
def enumArmEmission (ident variant : String) (arity : Nat)
    (payloads : List JsValue) (spanVal : JsValue) : JsValue :=
  match arity with
  | 0 => jsObject (variantTag ident variant) [] none
  | 1 => payloads.headD JsValue.undef
  | _ + 2 => jsObject (variantTag ident variant) [("span", spanVal)]
      (some payloads)

/-- The data the generated routine reads off `self`: the opaque scalar value
(`Private` nodes), the node's own converted span, the converted value of
each struct field by name, and — for enum nodes — the matched variant's name
together with its converted payload values. -/
structure NodeSelf where
  value : JsValue
  span : JsValue
  fieldVal : String → JsValue
  variant : String
  payloads : List JsValue

/-- The generated `to_js` body for a node: dispatch on its `Data` exactly as
`Node::to_tokens` does.  For an enum, the generated `match` has one arm per
declared variant; a name outside the declared variants matches no arm. -/
def nodeEmission (n : Node) (s : NodeSelf) : JsValue :=
  match n.data with
  | Data.Private => privateEmission n.ident s.value s.span
  | Data.Struct fields => structEmission n.ident fields s.fieldVal s.span
  | Data.Enum variants =>
      match variants.lookup s.variant with
      | none => JsValue.undef
      | some tys => enumArmEmission n.ident s.variant tys.length s.payloads s.span

/-- The routine `Definitions::to_tokens` emits for each token catalog entry:
`js!(#key { span: self.span() })`. -/
def tokenEmission (key : String) (spanVal : JsValue) : JsValue :=
  jsObject key [("span", spanVal)] none

/-- The identifiers for which `Definitions::to_tokens` emits a conversion
routine: every declared node and every declared token, in order. -/
def generatedRoutines (d : Definitions) : List String :=
  d.types.map Node.ident ++ d.tokens.map Prod.fst

/-! ## Entry points (`lib.rs`) -/

/-- `syn::Error`, reduced to what `ToJS for syn::Error` reads: its rendered
message and its span (pointing at the first offending token). -/
structure SynError where
  message : String
  span : Span

/-- `ToJS for syn::Error`: a `SyntaxError` host object with the message and
`lineNumber = self.span().start().line`. -/
def synError_to_js (e : SynError) : JsValue :=
  JsValue.err e.message e.span.start.line

/-- `parse_file` (`parseFile`): run the external parser on the text; on
success, JSON-encode the tree through `syn_serde::json::to_string` and
return that string; on failure, the converted error.  The parser and the
encoder are external collaborators, passed as parameters. -/
def parse_file (parse : String → Except SynError F)
    (json_to_string : F → String) (rust : String) : Except JsValue JsValue :=
  match parse rust with
  | Except.ok ast => Except.ok (string_to_js (json_to_string ast))
  | Except.error e => Except.error (synError_to_js e)

/-- `parse_derive_input` (`parseDeriveInput`): run the external
single-declaration parser; on success, convert the tree directly with its
generated `to_js` routine; on failure, the converted error. -/
def parse_derive_input (parse_str : String → Except SynError D)
    (to_js : D → JsValue) (rust : String) : Except JsValue JsValue :=
  match parse_str rust with
  | Except.ok ast => Except.ok (to_js ast)
  | Except.error e => Except.error (synError_to_js e)

/-- `print_ast` (`printAst`): decode the JSON tree through
`syn_serde::json::from_str`; on success, render it back to source text; on
failure, the decode error's rendered message as a plain string. -/
def print_ast (json_from_str : String → Except String F)
    (render : F → String) (ast : String) : Except JsValue JsValue :=
  match json_from_str ast with
  | Except.ok file => Except.ok (string_to_js (render file))
  | Except.error e => Except.error (string_to_js e)

/-- Number of lines of a text — one more than the number of newline
characters (for relating a span inside the input to the input's extent). -/
def lineCount (s : String) : Nat :=
  (s.data.filter (fun c => c = '\n')).length + 1

/-! ## Helper lemmas -/

/-- A list that is pairwise sorted for the boolean-key order `!p a || p b`
is its `!p` part followed by its `p` part. -/
theorem pairwise_le_partition (p : α → Bool) {l : List α}
    (hl : l.Pairwise (fun a b => (!p a || p b) = true)) :
    l = l.filter (fun a => !p a) ++ l.filter p := by
  induction hl with
  | nil => simp
  | @cons a t h _ ih =>
    by_cases hpa : p a = true
    · have hall : ∀ b ∈ t, p b = true := by
        intro b hb
        have := h b hb
        simpa [hpa] using this
      have h1 : t.filter (fun x => !p x) = [] := by
        rw [List.filter_eq_nil_iff]
        intro b hb
        simp [hall b hb]
      have h2 : t.filter p = t := List.filter_eq_self.mpr hall
      simp [List.filter_cons, hpa, h1, h2]
    · have hpa' : p a = false := by
        cases hv : p a
        · rfl
        · exact absurd hv hpa
      simp only [List.filter_cons, hpa', Bool.not_false, if_pos, cond_true,
        Bool.false_eq_true, if_neg, reduceCtorEq, not_false_eq_true]
      simpa using congrArg (List.cons a) ih

/-- A merge sort by the two-valued key `p` (false before true) is the stable
partition: the `!p` elements, then the `p` elements, each in original
order. -/
theorem mergeSort_partition (p : α → Bool) (l : List α) :
    l.mergeSort (fun a b => !p a || p b) =
      l.filter (fun a => !p a) ++ l.filter p := by
  have trans : ∀ a b c : α,
      (!p a || p b) = true → (!p b || p c) = true → (!p a || p c) = true := by
    intro a b c hab hbc
    cases hpa : p a <;> cases hpb : p b <;> cases hpc : p c <;> simp_all
  have total : ∀ a b : α, ((!p a || p b) || (!p b || p a)) = true := by
    intro a b
    cases hpa : p a <;> cases hpb : p b <;> simp_all
  have hsorted : (l.mergeSort (fun a b => !p a || p b)).Pairwise
      (fun a b => (!p a || p b) = true) :=
    List.sorted_mergeSort trans total l
  have hself : l.mergeSort (fun a b => !p a || p b) =
      (l.mergeSort (fun a b => !p a || p b)).filter (fun a => !p a)
        ++ (l.mergeSort (fun a b => !p a || p b)).filter p :=
    pairwise_le_partition p hsorted
  have hsubNP : List.Sublist (l.filter (fun a => !p a))
      (l.mergeSort (fun a b => !p a || p b)) := by
    apply List.sublist_mergeSort trans total
    · apply List.pairwise_of_forall_mem_list
      intro a ha b _
      have : (!p a) = true := (List.mem_filter.mp ha).2
      simp [this]
    · exact List.filter_sublist l
  have hsubP : List.Sublist (l.filter p)
      (l.mergeSort (fun a b => !p a || p b)) := by
    apply List.sublist_mergeSort trans total
    · apply List.pairwise_of_forall_mem_list
      intro a _ b hb
      have : p b = true := (List.mem_filter.mp hb).2
      simp [this]
    · exact List.filter_sublist l
  have hpermNP : ((l.mergeSort (fun a b => !p a || p b)).filter
      (fun a => !p a)).Perm (l.filter (fun a => !p a)) :=
    (List.mergeSort_perm l _).filter _
  have hpermP : ((l.mergeSort (fun a b => !p a || p b)).filter p).Perm
      (l.filter p) :=
    (List.mergeSort_perm l _).filter _
  have heqNP : l.filter (fun a => !p a) =
      (l.mergeSort (fun a b => !p a || p b)).filter (fun a => !p a) := by
    apply List.Sublist.eq_of_length
    · have := hsubNP.filter (fun a => !p a)
      simpa [List.filter_filter] using this
    · exact (hpermNP.length_eq).symm
  have heqP : l.filter p =
      (l.mergeSort (fun a b => !p a || p b)).filter p := by
    apply List.Sublist.eq_of_length
    · have := hsubP.filter p
      simpa [List.filter_filter] using this
    · exact (hpermP.length_eq).symm
  rw [hself, ← heqNP, ← heqP]

/-- Every sort key is 0 or 1. -/
theorem groupSortKey_zero_or_one (t : Ty) :
    groupSortKey t = 0 ∨ groupSortKey t = 1 := by
  cases t <;> simp [groupSortKey]
  rename_i ident
  by_cases h : ident = "MacroDelimiter" <;> simp [h]

/-- The sort in the `Data::Struct` arm is the stable partition of the fields
by the group key: non-group fields first, then group fields, each class in
declaration order. -/
theorem sortFields_eq (fields : List (String × Ty)) :
    sortFields fields =
      fields.filter (fun f => groupSortKey f.2 == 0)
        ++ fields.filter (fun f => groupSortKey f.2 == 1) := by
  have hle : (fun (a b : String × Ty) =>
        decide (groupSortKey a.2 ≤ groupSortKey b.2))
      = fun a b => !(groupSortKey a.2 == 1) || (groupSortKey b.2 == 1) := by
    funext a b
    rcases groupSortKey_zero_or_one a.2 with h | h <;>
      rcases groupSortKey_zero_or_one b.2 with h2 | h2 <;> simp [h, h2]
  have hfilter : fields.filter (fun f => !(groupSortKey f.2 == 1))
      = fields.filter (fun f => groupSortKey f.2 == 0) := by
    apply List.filter_congr
    intro f _
    rcases groupSortKey_zero_or_one f.2 with h | h <;> simp [h]
  rw [sortFields, hle, mergeSort_partition, hfilter]

/-- The span blacklist, as a membership property. -/
theorem has_spanned_iff (ty : String) :
    has_spanned ty = false ↔
      (ty = "DataStruct" ∨ ty = "DataEnum" ∨ ty = "DataUnion" ∨
        ty = "FnDecl" ∨ ty = "QSelf") := by
  unfold has_spanned
  split <;> simp_all

/-! ## Claim theorems -/

/-- **C1** — For every struct node whose fields include a group-like field
(`Group` type, or `Syn` reference to `MacroDelimiter`) among non-group
fields, the generated conversion emits all non-group fields first (in
declaration order), then all group-like fields (in declaration order), then
the trailing `span` field (when the node has one); only the emitted order
changes. -/
theorem struct_group_field_order (ident : String)
    (fields : List (String × Ty))
    (fieldVal : String → JsValue) (spanVal : JsValue)
    (hg : ∃ f ∈ fields, groupSortKey f.2 = 1)
    (hng : ∃ f ∈ fields, groupSortKey f.2 = 0) :
    structEmission ident fields fieldVal spanVal =
      jsObject ident
        ((fields.filter (fun f => groupSortKey f.2 == 0)).map
            (fun f => (f.1, fieldVal f.1))
          ++ (fields.filter (fun f => groupSortKey f.2 == 1)).map
            (fun f => (f.1, fieldVal f.1))
          ++ (if has_spanned ident then [("span", spanVal)] else []))
        none := by
  unfold structEmission
  rw [sortFields_eq]
  simp [List.map_append, List.append_assoc]

/-- Witness for C1: the emission order for a node shaped like `ExprParen`
(`attrs`, then the group field `paren_token`, then `expr`). -/
theorem struct_group_field_order_witness :
    structEmission "ExprParen"
        [("attrs", Ty.Vec (Ty.Syn "Attribute")),
         ("paren_token", Ty.Group "Paren"),
         ("expr", Ty.Box (Ty.Syn "Expr"))]
        (fun _ => JsValue.undef) JsValue.undef =
      jsObject "ExprParen"
        (([("attrs", Ty.Vec (Ty.Syn "Attribute")),
           ("paren_token", Ty.Group "Paren"),
           ("expr", Ty.Box (Ty.Syn "Expr"))].filter
              (fun f => groupSortKey f.2 == 0)).map
            (fun f => (f.1, (fun _ => JsValue.undef) f.1))
          ++ ([("attrs", Ty.Vec (Ty.Syn "Attribute")),
              ("paren_token", Ty.Group "Paren"),
              ("expr", Ty.Box (Ty.Syn "Expr"))].filter
              (fun f => groupSortKey f.2 == 1)).map
            (fun f => (f.1, (fun _ => JsValue.undef) f.1))
          ++ (if has_spanned "ExprParen" then [("span", JsValue.undef)]
              else [])) none :=
  struct_group_field_order "ExprParen" _ _ _
    (by refine ⟨("paren_token", Ty.Group "Paren"), by simp, rfl⟩)
    (by refine ⟨("attrs", Ty.Vec (Ty.Syn "Attribute")), by simp, rfl⟩)

/-- **C9** — For every struct node, the generated conversion appends a
trailing `span` field unless the node identifier is in the hand-maintained
exclusion set `DataStruct`, `DataEnum`, `DataUnion`, `FnDecl`, `QSelf`, in
which case no `span` field is emitted after the fields. -/
theorem struct_span_exclusion (ident : String)
    (fields : List (String × Ty))
    (fieldVal : String → JsValue) (spanVal : JsValue) :
    structEmission ident fields fieldVal spanVal =
      jsObject ident
        ((sortFields fields).map (fun f => (f.1, fieldVal f.1))
          ++ (if ident = "DataStruct" ∨ ident = "DataEnum" ∨
                ident = "DataUnion" ∨ ident = "FnDecl" ∨ ident = "QSelf"
              then []
              else [("span", spanVal)]))
        none := by
  unfold structEmission
  by_cases h : ident = "DataStruct" ∨ ident = "DataEnum" ∨
      ident = "DataUnion" ∨ ident = "FnDecl" ∨ ident = "QSelf"
  · rw [if_pos h, (has_spanned_iff ident).mpr h]
    simp
  · rw [if_neg h]
    have hs : has_spanned ident = true := by
      cases hv : has_spanned ident
      · exact absurd ((has_spanned_iff ident).mp hv) h
      · rfl
    rw [hs]
    simp

/-- **C4** — For every enum node, the generated conversion dispatches on the
matched variant's declared payload arity: 0 payloads gives a tagged empty
object `EnumName::VariantName`; 1 payload delegates entirely to the single
payload's conversion with no wrapper; 2 or more payloads gives an object
with the variant tag, a `span` field from the whole value's position, and
the converted payloads as indexed entries followed by a `length` entry. -/
theorem enum_variant_dispatch (ident : String)
    (variants : List (String × List Ty)) (tys : List Ty) (s : NodeSelf)
    (hlook : variants.lookup s.variant = some tys)
    (hlen : s.payloads.length = tys.length) :
    (tys.length = 0 →
      nodeEmission ⟨ident, Data.Enum variants⟩ s =
        JsValue.object
          [(JsKey.s "_type", JsValue.string (variantTag ident s.variant))]) ∧
    (tys.length = 1 →
      ∃ x, s.payloads = [x] ∧
        nodeEmission ⟨ident, Data.Enum variants⟩ s = x) ∧
    (2 ≤ tys.length →
      nodeEmission ⟨ident, Data.Enum variants⟩ s =
        JsValue.object
          ([(JsKey.s "_type", JsValue.string (variantTag ident s.variant)),
            (JsKey.s "span", s.span)]
            ++ s.payloads.enum.map (fun iv => (JsKey.i iv.1, iv.2))
            ++ [(JsKey.s "length",
                JsValue.number s.payloads.length)])) := by
  refine ⟨fun h0 => ?_, fun h1 => ?_, fun h2 => ?_⟩
  · simp [nodeEmission, hlook, enumArmEmission, h0, jsObject,
      new_object_with_type]
  · have hp1 : s.payloads.length = 1 := by rw [hlen, h1]
    obtain ⟨x, hx⟩ := List.length_eq_one.mp hp1
    refine ⟨x, hx, ?_⟩
    simp [nodeEmission, hlook, enumArmEmission, h1, hx]
  · obtain ⟨k, hk⟩ := Nat.exists_eq_add_of_le h2
    have hk' : tys.length = k + 2 := by omega
    simp only [nodeEmission, hlook, hk']
    simp [enumArmEmission, jsObject, new_object_with_type]

/-- Witness for C4: a three-variant enum, matched at its two-payload
variant. -/
theorem enum_variant_dispatch_witness :
    nodeEmission
        ⟨"E", Data.Enum
          [("A", []), ("B", [Ty.Std "u32"]),
           ("C", [Ty.Std "u32", Ty.Std "u32"])]⟩
        ⟨JsValue.undef, JsValue.undef, fun _ => JsValue.undef, "C",
          [JsValue.number 1, JsValue.number 2]⟩ =
      JsValue.object
        ([(JsKey.s "_type", JsValue.string (variantTag "E" "C")),
          (JsKey.s "span", JsValue.undef)]
          ++ ([JsValue.number 1, JsValue.number 2].enum.map
              (fun iv => (JsKey.i iv.1, iv.2)))
          ++ [(JsKey.s "length",
              JsValue.number [JsValue.number 1, JsValue.number 2].length)]) :=
  (enum_variant_dispatch "E"
      [("A", []), ("B", [Ty.Std "u32"]), ("C", [Ty.Std "u32", Ty.Std "u32"])]
      [Ty.Std "u32", Ty.Std "u32"]
      ⟨JsValue.undef, JsValue.undef, fun _ => JsValue.undef, "C",
        [JsValue.number 1, JsValue.number 2]⟩
      rfl rfl).2.2 (by simp)

/-- **C2 counterexample** — converting a zero-payload enum variant yields
the variant-qualified tag `"E::A"`, which differs from the node identifier
`"E"`, so not every produced value carries a tag equal to the node
identifier (and a zero-payload variant is not the single-payload
exception). -/
theorem enum_zero_payload_tag_counterexample :
    tagOf (nodeEmission ⟨"E", Data.Enum [("A", [])]⟩
        ⟨JsValue.undef, JsValue.undef, fun _ => JsValue.undef, "A", []⟩)
      = some "E::A" ∧
    (some "E::A" : Option String) ≠ some "E" := by
  refine ⟨rfl, by decide⟩

/-- **C2 (amended)** — For every node and token declared in the schema a
conversion routine is generated, and the tags are: `Private` and `Struct`
nodes and tokens carry a `_type` equal to the node/token identifier; an
enum variant with 0 or ≥ 2 payloads carries the variant-qualified tag
`Ident::Variant`; and a single-payload variant delegates to its payload's
conversion, so the value carries the payload's own tag. -/
theorem conversion_tag_law (n : Node) (s : NodeSelf)
    (key : String) (spanVal : JsValue) :
    (n.data = Data.Private → tagOf (nodeEmission n s) = some n.ident) ∧
    (∀ fields, n.data = Data.Struct fields →
      tagOf (nodeEmission n s) = some n.ident) ∧
    (∀ variants tys, n.data = Data.Enum variants →
      variants.lookup s.variant = some tys →
      s.payloads.length = tys.length →
      ((tys.length = 0 ∨ 2 ≤ tys.length) →
        tagOf (nodeEmission n s) = some (variantTag n.ident s.variant)) ∧
      (tys.length = 1 →
        ∃ x, s.payloads = [x] ∧ nodeEmission n s = x)) ∧
    tagOf (tokenEmission key spanVal) = some key ∧
    (∀ (d : Definitions) (nd : Node), nd ∈ d.types →
      nd.ident ∈ generatedRoutines d) ∧
    (∀ (d : Definitions) (tk : String × String), tk ∈ d.tokens →
      tk.1 ∈ generatedRoutines d) := by
  refine ⟨fun hp => ?_, fun fields hf => ?_,
    fun variants tys he hlook hlen => ⟨fun har => ?_, fun h1 => ?_⟩, ?_,
    fun d nd hnd => List.mem_append_left _ (List.mem_map_of_mem _ hnd),
    fun d tk htk => List.mem_append_right _ (List.mem_map_of_mem _ htk)⟩
  · simp [nodeEmission, hp, privateEmission, jsObject, new_object_with_type,
      tagOf, List.lookup]
  · simp [nodeEmission, hf, structEmission, jsObject, new_object_with_type,
      tagOf, List.lookup]
  · rcases har with h0 | h2
    · simp [nodeEmission, he, hlook, enumArmEmission, h0, jsObject,
        new_object_with_type, tagOf, List.lookup]
    · obtain ⟨k, hk⟩ := Nat.exists_eq_add_of_le h2
      have hk' : tys.length = k + 2 := by omega
      simp [nodeEmission, he, hlook, hk', enumArmEmission, jsObject,
        new_object_with_type, tagOf, List.lookup]
  · have hp1 : s.payloads.length = 1 := by rw [hlen, h1]
    obtain ⟨x, hx⟩ := List.length_eq_one.mp hp1
    refine ⟨x, hx, ?_⟩
    simp [nodeEmission, he, hlook, enumArmEmission, h1, hx]
  · simp [tokenEmission, jsObject, new_object_with_type, tagOf, List.lookup]

/-- Witness for C2: the tag of a generated struct-node conversion equals
the node identifier. -/
theorem conversion_tag_law_witness :
    tagOf (nodeEmission ⟨"Variant", Data.Struct [("ident", Ty.Ext "Ident")]⟩
        ⟨JsValue.undef, JsValue.undef, fun _ => JsValue.undef, "", []⟩)
      = some "Variant" :=
  (conversion_tag_law ⟨"Variant", Data.Struct [("ident", Ty.Ext "Ident")]⟩
      ⟨JsValue.undef, JsValue.undef, fun _ => JsValue.undef, "", []⟩
      "Bang" JsValue.undef).2.1 [("ident", Ty.Ext "Ident")] rfl

/-- **C3** — A separated list converts to a `"Punctuated"`-tagged object
holding the converted elements and separators alternating in order (each
element followed by its separator when present), whose `length` entry is
the count of items written: `2n` with a trailing separator, `2n - 1`
without one (`n ≥ 1`), and `0` for the empty list. -/
theorem punctuated_length_invariant (fT : T → JsValue) (fP : P → JsValue)
    (p : Punctuated T P) :
    punctuated_to_js fT fP p =
      jsObject "Punctuated" [] (some (punctuatedItems fT fP p)) ∧
    punctuatedItems fT fP p =
      (p.inner.map (fun tp => [fT tp.1, fP tp.2])).flatten
        ++ (p.last.map fT).toList ∧
    (p.last = none →
      (punctuatedItems fT fP p).length = 2 * p.numElems) ∧
    (p.last.isSome = true →
      (punctuatedItems fT fP p).length = 2 * p.numElems - 1) ∧
    (p.numElems = 0 → (punctuatedItems fT fP p).length = 0) := by
  have hpairlen : ∀ (l : List (T × P)),
      ((l.map (fun tp => [fT tp.1, fP tp.2])).flatten).length
        = 2 * l.length := by
    intro l
    induction l with
    | nil => simp
    | cons h t ih =>
        simp only [List.map_cons, List.flatten_cons, List.length_append,
          List.length_cons, List.length_nil, ih]
        omega
  have hmap : ∀ (l : List (T × P)),
      ((l.map (fun tp => (tp.1, some tp.2))).map
          (fun tp => fT tp.1 :: match tp.2 with
                                | none => []
                                | some pn => [fP pn])).flatten
        = (l.map (fun tp => [fT tp.1, fP tp.2])).flatten := by
    intro l
    induction l with
    | nil => rfl
    | cons h t ih =>
        simp only [List.map_cons, List.flatten_cons]
        rw [ih]
  have hitems : punctuatedItems fT fP p =
      (p.inner.map (fun tp => [fT tp.1, fP tp.2])).flatten
        ++ (p.last.map fT).toList := by
    unfold punctuatedItems Punctuated.pairs
    cases p.last with
    | none =>
        simp only [List.append_nil, Option.map_none, Option.toList_none]
        rw [← hmap p.inner]
        simp
    | some t =>
        simp only [List.map_append, List.flatten_append, Option.map_some,
          Option.toList_some, List.map_cons, List.map_nil,
          List.flatten_cons, List.flatten_nil, List.append_nil]
        rw [← hmap p.inner]
        simp
  refine ⟨rfl, hitems, fun hnone => ?_, fun hsome => ?_, fun hzero => ?_⟩
  · rw [hitems, hnone]
    simp [Punctuated.numElems, hnone, hpairlen]
  · obtain ⟨t, ht⟩ := Option.isSome_iff_exists.mp hsome
    rw [hitems, ht]
    simp only [List.length_append, hpairlen, Option.map_some,
      Option.toList_some, List.length_cons, List.length_nil]
    simp [Punctuated.numElems, ht]
    omega
  · have hlast : p.last = none := by
      cases hl : p.last
      · rfl
      · exfalso
        have := hzero
        simp [Punctuated.numElems, hl] at this
    have hinner : p.inner = [] := by
      simpa [Punctuated.numElems, hlast] using hzero
    rw [hitems, hinner, hlast]
    simp

/-- Witness for C3: a two-element list without trailing separator has
emitted length 3. -/
theorem punctuated_length_invariant_witness :
    punctuated_to_js u32_to_js u32_to_js
        (⟨[(1, 10)], some 2⟩ : Punctuated Nat Nat) =
      jsObject "Punctuated" []
        (some (punctuatedItems u32_to_js u32_to_js ⟨[(1, 10)], some 2⟩)) ∧
    (punctuatedItems u32_to_js u32_to_js
        (⟨[(1, 10)], some 2⟩ : Punctuated Nat Nat)).length =
      2 * Punctuated.numElems (⟨[(1, 10)], some 2⟩ : Punctuated Nat Nat)
        - 1 :=
  ⟨(punctuated_length_invariant u32_to_js u32_to_js ⟨[(1, 10)], some 2⟩).1,
    (punctuated_length_invariant u32_to_js u32_to_js
      ⟨[(1, 10)], some 2⟩).2.2.2.1 rfl⟩

/-- **C5** — Booleans and `u32` convert exactly; `u64`, `usize` and `u8` go
through the double-precision path `toF64`, exact up to `2 ^ 53` (so no
64-bit value below the boundary loses precision) and lossy above it: the
values `2 ^ 53` and `2 ^ 53 + 1` both convert to the number `2 ^ 53`. -/
theorem numeric_conversion_policy :
    (∀ b : Bool, bool_to_js b = JsValue.boolean b) ∧
    (∀ n : Nat, n < 2 ^ 32 → u32_to_js n = JsValue.number n) ∧
    (∀ n : Nat, n ≤ 2 ^ 53 →
      u64_to_js n = JsValue.number n ∧ usize_to_js n = JsValue.number n ∧
        u8_to_js n = JsValue.number n) ∧
    u64_to_js (2 ^ 53 + 1) = u64_to_js (2 ^ 53) ∧
    u64_to_js (2 ^ 53 + 1) = JsValue.number (2 ^ 53) := by
  have hround : toF64 (2 ^ 53 + 1) = 2 ^ 53 := by decide
  have hexact : ∀ n : Nat, n ≤ 2 ^ 53 → toF64 n = n := by
    intro n h
    unfold toF64
    rw [if_pos h]
  refine ⟨fun b => rfl, fun n _ => rfl, fun n h => ?_, ?_, ?_⟩
  · exact ⟨congrArg JsValue.number (hexact n h),
      congrArg JsValue.number (hexact n h),
      congrArg JsValue.number (hexact n h)⟩
  · exact congrArg JsValue.number
      (hround.trans (hexact (2 ^ 53) (le_refl _)).symm)
  · exact congrArg JsValue.number hround

/-- Witness for C5: the exact-conversion clauses at concrete inputs. -/
theorem numeric_conversion_policy_witness :
    u32_to_js 7 = JsValue.number 7 ∧ u64_to_js 9 = JsValue.number 9 :=
  ⟨(numeric_conversion_policy.2.1 7 (by decide)),
    (numeric_conversion_policy.2.2.1 9 (by norm_num)).1⟩

/-- **C6 counterexample** — a converted `Vec` (and tuple) is a plain host
array: it carries no `_type` tag and no `length` entry, so it does not have
the tagged-indexed-sequence shape that `Punctuated` values have. -/
theorem vec_tuple_untagged_counterexample :
    vec_to_js u32_to_js [1, 2] =
      JsValue.array [JsValue.number 1, JsValue.number 2] ∧
    tagOf (vec_to_js u32_to_js [1, 2]) = none ∧
    isTaggedIndexedSeq (vec_to_js u32_to_js [1, 2]) = false ∧
    pair_to_js u32_to_js u32_to_js (1, 2) =
      JsValue.array [JsValue.number 1, JsValue.number 2] ∧
    isTaggedIndexedSeq (pair_to_js u32_to_js u32_to_js (1, 2)) = false ∧
    isTaggedIndexedSeq (punctuated_to_js u32_to_js u32_to_js
        (⟨[(1, 2)], none⟩ : Punctuated Nat Nat)) = true :=
  ⟨rfl, rfl, rfl, rfl, rfl, rfl⟩

/-- **C6 (amended)** — Converting a `Vec` yields a plain (untagged) host
array of the converted elements in order, and converting a tuple yields a
fixed-arity plain array; neither carries a `_type` tag or an explicit
`length` entry, unlike the tagged-indexed-sequence shape used for
`Punctuated`, `TokenStream` and multi-payload enum variants. -/
theorem vec_tuple_conversion (f : α → JsValue) (fb : β → JsValue)
    (fc : γ → JsValue) (l : List α) (p2 : α × β) (p3 : α × β × γ) :
    vec_to_js f l = JsValue.array (l.map f) ∧
    slice_to_js f l = JsValue.array (l.map f) ∧
    pair_to_js f fb p2 = JsValue.array [f p2.1, fb p2.2] ∧
    triple_to_js f fb fc p3 =
      JsValue.array [f p3.1, fb p3.2.1, fc p3.2.2] ∧
    tagOf (vec_to_js f l) = none ∧
    isTaggedIndexedSeq (vec_to_js f l) = false ∧
    isTaggedIndexedSeq (pair_to_js f fb p2) = false ∧
    isTaggedIndexedSeq (triple_to_js f fb fc p3) = false :=
  ⟨rfl, rfl, rfl, rfl, rfl, rfl, rfl, rfl⟩

/-- **C7 counterexample** — `parse_derive_input` does not surface the
encoded textual form: with a single-declaration parser that succeeds and
the generated conversion producing the tagged `DeriveInput` object, the
result is that object — not a string — while `parse_file` surfaces the
encoder's string. -/
theorem parse_derive_input_not_encoded_counterexample :
    parse_derive_input (fun _ => Except.ok ())
        (fun _ => jsObject "DeriveInput" [] none) "struct A ;"
      = Except.ok (jsObject "DeriveInput" [] none) ∧
    isStringValue (jsObject "DeriveInput" [] none) = false ∧
    parse_file (fun _ => Except.ok ()) (fun _ => "encoded tree") "struct A ;"
      = Except.ok (JsValue.string "encoded tree") ∧
    isStringValue (JsValue.string "encoded tree") = true :=
  ⟨rfl, rfl, rfl, rfl⟩

/-- **C7 (amended)** — On success, `parse_file` returns the tree encoded to
the canonical structured (textual) form by the external encode layer,
whereas `parse_derive_input` returns the tree converted directly by the
runtime conversion layer (its generated `to_js` routine), not the encoded
form. -/
theorem entry_point_success_paths (parse : String → Except SynError F)
    (json_to_string : F → String)
    (parse_str : String → Except SynError D) (to_js : D → JsValue)
    (rust : String) (f : F) (d : D)
    (hf : parse rust = Except.ok f) (hd : parse_str rust = Except.ok d) :
    parse_file parse json_to_string rust =
      Except.ok (JsValue.string (json_to_string f)) ∧
    parse_derive_input parse_str to_js rust = Except.ok (to_js d) := by
  constructor
  · simp [parse_file, hf, string_to_js, str_to_js]
  · simp [parse_derive_input, hd]

/-- Witness for C7 (amended), at concrete collaborators. -/
theorem entry_point_success_paths_witness :
    parse_file (fun _ => Except.ok ()) (fun _ => "encoded tree") "fn f ( )"
      = Except.ok (JsValue.string "encoded tree") ∧
    parse_derive_input (fun _ => Except.ok ()) (fun _ => JsValue.undef)
        "fn f ( )"
      = Except.ok JsValue.undef :=
  entry_point_success_paths (fun _ => Except.ok ()) (fun _ => "encoded tree")
    (fun _ => Except.ok ()) (fun _ => JsValue.undef) "fn f ( )" () ()
    rfl rfl

/-- **C8** — A parse failure surfaces as the structured `SyntaxError`
carrying the parser's message and the 1-based start line of the error's
span (the first offending token); on the one-line input `"fn ("` any span
start within the input has line 1.  A decode failure in `print_ast`
surfaces as a plain string, not as the structured error. -/
theorem error_paths (parse : String → Except SynError F)
    (json_to_string : F → String)
    (parse_str : String → Except SynError D) (to_js : D → JsValue)
    (json_from_str : String → Except String G) (render : G → String)
    (rust ast : String) (e e2 : SynError) (msg : String)
    (h1 : parse rust = Except.error e)
    (h2 : parse_str rust = Except.error e2)
    (h3 : json_from_str ast = Except.error msg) :
    parse_file parse json_to_string rust =
      Except.error (JsValue.err e.message e.span.start.line) ∧
    parse_derive_input parse_str to_js rust =
      Except.error (JsValue.err e2.message e2.span.start.line) ∧
    print_ast json_from_str render ast =
      Except.error (JsValue.string msg) ∧
    isStructuredErr (JsValue.err e.message e.span.start.line) = true ∧
    isStructuredErr (JsValue.string msg) = false ∧
    (rust = "fn (" → 1 ≤ e.span.start.line →
      e.span.start.line ≤ lineCount rust → e.span.start.line = 1) := by
  refine ⟨?_, ?_, ?_, rfl, rfl, ?_⟩
  · simp [parse_file, h1, synError_to_js]
  · simp [parse_derive_input, h2, synError_to_js]
  · simp [print_ast, h3, string_to_js, str_to_js]
  · intro hr hlo hhi
    subst hr
    have : lineCount "fn (" = 1 := by decide
    omega

/-- Witness for C8: a parser failing on `"fn ("` at line 1, and a failing
decoder. -/
theorem error_paths_witness :
    parse_file
        (fun _ => Except.error
          (⟨"unexpected end of input", ⟨⟨1, 3⟩, ⟨1, 4⟩⟩⟩ : SynError))
        (fun (_ : Unit) => "") "fn (" =
      Except.error (JsValue.err "unexpected end of input" 1) ∧
    print_ast (fun _ => Except.error "expected value at line 1 column 1")
        (fun (_ : Unit) => "") "not json" =
      Except.error
        (JsValue.string "expected value at line 1 column 1") := by
  have h := error_paths
    (fun _ => Except.error
      (⟨"unexpected end of input", ⟨⟨1, 3⟩, ⟨1, 4⟩⟩⟩ : SynError))
    (fun (_ : Unit) => "")
    (fun _ => Except.error
      (⟨"unexpected end of input", ⟨⟨1, 3⟩, ⟨1, 4⟩⟩⟩ : SynError))
    (fun (_ : Unit) => JsValue.undef)
    (fun _ => Except.error "expected value at line 1 column 1")
    (fun (_ : Unit) => "") "fn (" "not json"
    ⟨"unexpected end of input", ⟨⟨1, 3⟩, ⟨1, 4⟩⟩⟩
    ⟨"unexpected end of input", ⟨⟨1, 3⟩, ⟨1, 4⟩⟩⟩
    "expected value at line 1 column 1" rfl rfl rfl
  exact ⟨h.1, h.2.2.1⟩

/-- **C10** — Converting the unit value yields `undefined`, the very value
produced by converting an absent `Option` of any element type, so a
consumer cannot tell a unit-typed field from an absent optional field. -/
theorem unit_option_indistinguishable :
    unit_to_js () = JsValue.undef ∧
    (∀ (α : Type) (f : α → JsValue),
      option_to_js f (none : Option α) = JsValue.undef) ∧
    unit_to_js () = option_to_js bool_to_js (none : Option Bool) ∧
    unit_to_js () =
      option_to_js (option_to_js u32_to_js) (none : Option (Option Nat)) :=
  ⟨rfl, fun _ _ => rfl, rfl, rfl⟩

end AstSyn
